import Mathlib

/-!
Shallow embedding of the OPR-BE farm-management backend core:
the ownership/sharing authorization layer, the per-resource derived-metrics
rules, and the CRUD orchestration skeleton (uniqueness checks, cascades,
farm sharing), translated from `project/api` in the source tree.

Modelling conventions:
- Python floats are modelled as `ℚ` (exact arithmetic; IEEE rounding noise is
  out of scope, no verified property depends on it).
- Python ints are `ℕ` or `ℤ` matching the field constraints (`ge=0` ⇒ `ℕ`).
- Calendar dates are modelled as day ordinals in `ℤ` (only equality,
  ordering and day subtraction are used by the code).
- Mongo document ids are opaque `String`s; the "invalid id format" 400 branch
  of `get_doc_by_id` is not modelled (every string is a well-formed id here).
- `Except Nat` carries the HTTP status code of a raised `HTTPException`.
- The storage layer's unique-index rejection (`DuplicateKeyError`) is an
  input flag to the operations that perform an insert/save, mirroring the
  `try/except` translation in every controller.
- Python's `str.strip`, `str.lower`, and string ordering are re-implemented
  over the character list so that the kernel can evaluate them.
-/

namespace OPRBE

/-- Code-point lexicographic comparison on character lists, the order Python
uses to compare/sort strings. -/
def lexLe : List Char → List Char → Bool
  | [], _ => true
  | _ :: _, [] => false
  | a :: as, b :: bs =>
    if a.toNat < b.toNat then true
    else if b.toNat < a.toNat then false
    else lexLe as bs

/-- Boolean string order backing Python `sorted`. -/
def strLeB (a b : String) : Bool := lexLe a.data b.data

/-- The same order as a relation, for `List.Sorted` statements. -/
def strLeR (a b : String) : Prop := strLeB a b = true

instance : DecidableRel strLeR := fun a b => instDecidableEqBool (strLeB a b) true

/-- Python `str.lower` (ASCII case fold suffices for the e-mail values used). -/
def lowerStr (s : String) : String := ⟨s.data.map Char.toLower⟩

/-- Python `str.strip`. -/
def trimStr (s : String) : String :=
  ⟨((s.data.dropWhile Char.isWhitespace).reverse.dropWhile Char.isWhitespace).reverse⟩

/-- Round a rational to `n` decimal places, modelling Python `round(x, n)`.
Differs from Python only on exact half-way ties (banker's rounding), which no
verified property exercises. -/
def roundTo (n : ℕ) (q : ℚ) : ℚ := (round (q * 10 ^ n) : ℤ) / 10 ^ n

/-- `project/api/models/user.py` `User` — the identity record consumed by the
authorization layer (password/reset fields are irrelevant here). -/
structure User where
  email : String
  is_admin : Bool
  is_active : Bool
  is_authorized : Bool
  read_only : Bool
deriving DecidableEq, Repr

/-- `project/api/models/farm.py` `Farm`. The `city`/`owner_name` keys accepted
by the create schema have no backing field on the document, exactly as in the
source model. -/
structure Farm where
  id : String
  name : String
  country : String
  state_province : String
  owner_email : String
  notes : Option String
  lat_long : Option (ℚ × ℚ)
  shared_with : List String
deriving DecidableEq, Repr

/-- `project/api/v1/decorators.py` `auth_guard` with `allowed_roles = None`
and `allowed_apps = None` (the configuration used by every measurement and
farm endpoint): returns the 403 raised, if any. `require_active` and
`require_authorized` keep their default `True`. -/
def auth_guard (u : User) (require_admin allow_read_only : Bool) : Option ℕ :=
  if !u.is_active then some 403
  else if !u.is_authorized then some 403
  else if require_admin && !u.is_admin then some 403
  else if !allow_read_only && u.read_only then some 403
  else none

/-- The per-record read rule used by every `get_entry`:
owner or member of `shared_with` (`user.email != farm.owner_email and
user.email not in (farm.shared_with or [])` negated). -/
def farm_readable (email : String) (f : Farm) : Bool :=
  email == f.owner_email || f.shared_with.contains email

/-- `project/api/utils.py` `get_accessible_farm_ids`: admins get the empty
set (signalling no restriction); non-admins get the ids of farms owned by or
shared with them. The Python `set` is modelled as a duplicate-free list. -/
def get_accessible_farm_ids (u : User) (farms : List Farm) : List String :=
  if u.is_admin then []
  else ((farms.filter fun f => f.owner_email == u.email
      || f.shared_with.contains u.email).map Farm.id).dedup

/-! Derived-metrics rules, one cluster per resource type, translated from the
model validators and controller `_recompute` helpers. -/

/-- `models/diet_cost.py` `DietCost._compute_phase`:
`float(cost_per_ton or 0.0) * float(days or 0)`. -/
def compute_phase (cost_per_ton : Option ℚ) (days : Option ℕ) : ℚ :=
  (cost_per_ton.getD 0) * ((days.getD 0 : ℕ) : ℚ)

/-- `models/environment.py` `Environment._calc_itu`. -/
def calc_itu (temp_c rh_pct : Option ℚ) : ℚ :=
  match temp_c, rh_pct with
  | some t, some rh => 0.8 * t + t * ((rh - 14.3) / 100) + 46.3
  | _, _ => 0

/-- `models/factory.py` `Factory._pct_ratio` (also the local `pct_ratio` in
`factory/controllers.py` `_recompute`): `0` when the denominator is `0` or
missing. -/
def ratio_pct (num den : Option ℚ) : ℚ :=
  let n := num.getD 0
  let d := den.getD 0
  if d = 0 then 0 else 100 * (n / d)

/-- `factory/controllers.py` `_recompute`, loading deviation:
`100*((total/planned) - 1)` when `planned` is present and non-zero, else `0`. -/
def loading_deviation_pct (man_total : ℚ) (planned : Option ℚ) : ℚ :=
  match planned with
  | none => 0
  | some p => if p = 0 then 0 else 100 * (man_total / p - 1)

/-- `factory/controllers.py` `_recompute`, supply deviation:
`100*((planned/sup_total) - 1)` when `planned` is present (and truthy) and
`sup_total` is non-zero, else `0`. -/
def supply_deviation_pct (planned : Option ℚ) (sup_total : ℚ) : ℚ :=
  match planned with
  | none => 0
  | some p => if p = 0 then 0 else if sup_total = 0 then 0 else 100 * (p / sup_total - 1)

/-- The shared percentage idiom of `Granulometry._pct`, `TroughScore._pct`,
`PennStateDiet._pct` and the forage controller `_pct`:
`100 * part / total`, `0` when the total is zero. -/
def part_pct (part : ℕ) (total : ℕ) : ℚ :=
  if (total : ℚ) = 0 then 0 else 100 * ((part : ℚ) / (total : ℚ))

/-- `models/granulometry.py` `Granulometry._granulometry`: sieve midpoint
weighted index over the five bucket percentages. -/
def granulometry_index (p6 p3_25 p2 p1_25 p0 : ℚ) : ℚ :=
  p6 / 100 * 6
    + p3_25 / 100 * ((6 + 3.25) / 2)
    + p2 / 100 * ((3.25 + 2) / 2)
    + p1_25 / 100 * ((2 + 1.25) / 2)
    + p0 / 100 * ((1.25 + 0) / 2)

/-- `manure_score/controllers.py` `_compute_total`. -/
def compute_total (s1 s2 s3 s35 s4 : ℕ) : ℕ := s1 + s2 + s3 + s35 + s4

/-- `manure_score/controllers.py` `_to_read` inner `pct`:
`round((v/total)*100, 1)` when `total > 0`, else `0`. -/
def ms_pct (v total : ℕ) : ℚ :=
  if 0 < total then roundTo 1 ((v : ℚ) / (total : ℚ) * 100) else 0

/-- `manure_score/controllers.py` `_to_read` desirable percentage:
`round(min(100.0, p3 + p2/2), 2)`. -/
def ms_desirable_pct (p3 p2 : ℚ) : ℚ := roundTo 2 (min 100 (p3 + p2 / 2))

/-- `penn_state/controllers.py` `_to_read` desirable percentage:
`max(0, min(100, round(k + j/2 + i/3, 1)))` with missing sieve percentages
treated as `0`. -/
def ps_desirable_pct (pct_19mm pct_8mm pct_3_8mm : Option ℚ) : ℚ :=
  let i := pct_19mm.getD 0
  let j := pct_8mm.getD 0
  let k := pct_3_8mm.getD 0
  max 0 (min 100 (roundTo 1 (k + j / 2 + i / 3)))

/-- `models/penn_state_diet.py` `PennStateDiet._calc_effectiveness`. -/
def calc_effectiveness (p19 p8 p1_18 : ℚ) : ℚ := p19 + p8 + p1_18 / 2

/-- `models/penn_state_diet.py` `PennStateDiet._calc_fdnef`: `0` when the FDN
bromate input is absent. The forage controller's
`float(doc.fdn_bromate_pct or 0.0) * (eff / 100.0)` computes the same value. -/
def calc_fdnef (fdn_bromate : Option ℚ) (effectiveness : ℚ) : ℚ :=
  match fdn_bromate with
  | none => 0
  | some f => f * (effectiveness / 100)

/-- `models/scale.py` `Scale._calc`: `(kg_diff, pct_diff)` with
`pct_diff = 0` when `loaded_weight` is `0` (Python falsiness of the int). -/
def scale_calc (net_weight loaded_weight : ℤ) : ℤ × ℚ :=
  let kg_diff := net_weight - loaded_weight
  (kg_diff, if loaded_weight = 0 then 0 else (kg_diff : ℚ) / (loaded_weight : ℚ) * 100)

/-- `models/scale.py` net weight rule: `gross_weight - tare_weight`. -/
def net_weight_calc (gross tare : ℤ) : ℤ := gross - tare

/-- `storage_inspection` rule (model validator `_ensure_time_without_use` and
controller `_compute_days_without_use`): `max(0, (date - closing_date).days)`,
`0` when either date is absent. -/
def days_without_use (date closing : Option ℤ) : ℤ :=
  match date, closing with
  | some d, some c => if 0 < d - c then d - c else 0
  | _, _ => 0

/-- `factory`/`trough_score` `_sum3` (`int(a or 0) + ...`). -/
def sum3 (a b c : ℕ) : ℕ := a + b + c

/-- `granulometry` `_sum5`. -/
def sum5 (a b c d e : ℕ) : ℕ := a + b + c + d + e

/-- `penn_state_diet`/`penn_state_forage` `_sum_counts` / `_sum4`. -/
def sum4 (a b c d : ℕ) : ℕ := a + b + c + d

/-! CRUD orchestration for the manure-score resource
(`project/api/v1/manure_score/controllers.py` and the router
`manure_score.py`), the measurement resource cited by the claims; every other
resource repeats the same skeleton. -/

/-- `models/manure_score.py` `ManureScore` document. -/
structure ManureScore where
  id : String
  date : ℤ
  unit : String
  farm_id : String
  diet : Option String
  score_1 : ℕ
  score_2 : ℕ
  score_3 : ℕ
  score_3_5 : ℕ
  score_4 : ℕ
  total : ℕ
deriving DecidableEq, Repr

/-- `manure_score/schemas.py` `ManureScoreCreate` (after input coercion). -/
structure ManureScoreCreate where
  date : ℤ
  unit : String
  farm_id : String
  diet : Option String
  score_1 : ℕ
  score_2 : ℕ
  score_3 : ℕ
  score_3_5 : ℕ
  score_4 : ℕ
deriving DecidableEq, Repr

/-- `manure_score/schemas.py` `ManureScoreUpdate`; the outer `Option` is
pydantic's "field present in the payload" (`exclude_unset`), the inner value
the assigned one. Note the payload exposes neither `date` nor `farm_id`. -/
structure ManureScoreUpdate where
  unit : Option String
  diet : Option (Option String)
  score_1 : Option ℕ
  score_2 : Option ℕ
  score_3 : Option ℕ
  score_3_5 : Option ℕ
  score_4 : Option ℕ
deriving DecidableEq, Repr

/-- The update payload with no field set. -/
def ms_empty_update : ManureScoreUpdate :=
  { unit := none, diet := none, score_1 := none, score_2 := none,
    score_3 := none, score_3_5 := none, score_4 := none }

/-- `utils.py` `apply_updates` specialised to the manure-score document:
`setattr` for each key present in `model_dump(exclude_unset=True)`. -/
def ms_apply_updates (d : ManureScore) (u : ManureScoreUpdate) : ManureScore :=
  { d with
    unit := u.unit.getD d.unit,
    diet := u.diet.getD d.diet,
    score_1 := u.score_1.getD d.score_1,
    score_2 := u.score_2.getD d.score_2,
    score_3 := u.score_3.getD d.score_3,
    score_3_5 := u.score_3_5.getD d.score_3_5,
    score_4 := u.score_4.getD d.score_4 }

/-- The resource's uniqueness key tuple `(farm_id, date, diet)`. -/
def ms_key (d : ManureScore) : String × ℤ × Option String := (d.farm_id, d.date, d.diet)

/-- `manure_score/controllers.py` `create_entry`. `new_id` is the id the
storage layer assigns on insert; `dup_key` is true when the insert is rejected
by the unique index (`DuplicateKeyError`). -/
def ms_create_entry (farms : List Farm) (docs : List ManureScore)
    (p : ManureScoreCreate) (new_id : String) (dup_key : Bool) :
    Except ℕ (List ManureScore) :=
  if (farms.find? fun f => f.id == p.farm_id).isNone then .error 400
  else if (docs.find? fun d =>
      d.farm_id == p.farm_id && d.date == p.date && d.diet == p.diet).isSome then .error 409
  else if dup_key then .error 409
  else
    let doc : ManureScore :=
      { id := new_id, date := p.date, unit := p.unit,
        farm_id := p.farm_id, diet := p.diet,
        score_1 := p.score_1, score_2 := p.score_2, score_3 := p.score_3,
        score_3_5 := p.score_3_5, score_4 := p.score_4,
        total := compute_total p.score_1 p.score_2 p.score_3 p.score_3_5 p.score_4 }
    .ok (docs ++ [doc])

/-- `manure_score/controllers.py` `get_entry`: 404 when the id resolves to no
record, then the farm read-authorization check for non-admins. -/
def ms_get_entry (farms : List Farm) (docs : List ManureScore)
    (entry_id : String) (u : User) : Except ℕ ManureScore :=
  match docs.find? fun d => d.id == entry_id with
  | none => .error 404
  | some doc =>
    if u.is_admin then .ok doc
    else
      match farms.find? fun f => f.id == doc.farm_id with
      | none => .error 403
      | some farm => if farm_readable u.email farm then .ok doc else .error 403

/-- `manure_score/controllers.py` `update_entry`. Exactly as in the source,
the function receives no acting user and performs no farm lookup: apply the
set fields, run the uniqueness conflict check excluding the record's own id,
recompute `total`, save (`dup_key` models a `DuplicateKeyError` on save). -/
def ms_update_entry (docs : List ManureScore) (entry_id : String)
    (u : ManureScoreUpdate) (dup_key : Bool) : Except ℕ (List ManureScore) :=
  match docs.find? fun d => d.id == entry_id with
  | none => .error 404
  | some doc0 =>
    let doc1 := ms_apply_updates doc0 u
    if (docs.find? fun o => o.farm_id == doc1.farm_id && o.date == doc1.date
        && o.diet == doc1.diet && o.id != doc0.id).isSome then .error 409
    else
      let t2 := compute_total doc1.score_1 doc1.score_2 doc1.score_3 doc1.score_3_5 doc1.score_4
      let doc2 := { doc1 with total := t2 }
      if dup_key then .error 409
      else .ok (docs.map fun d => if d.id == doc0.id then doc2 else d)

/-- `manure_score/controllers.py` `delete_entry`: no acting user, no farm
check — resolve and delete. -/
def ms_delete_entry (docs : List ManureScore) (entry_id : String) :
    Except ℕ (List ManureScore) :=
  match docs.find? fun d => d.id == entry_id with
  | none => .error 404
  | some _ => .ok (docs.filter fun d => !(d.id == entry_id))

/-- Router `manure_score.py` `update_manure_score`: the only user-dependent
gate is `auth_guard(require_admin=False, allow_read_only=False)`; the farm
table is threaded through to show it is never consulted. -/
def ms_update_endpoint (u : User) (_farms : List Farm) (docs : List ManureScore)
    (entry_id : String) (upd : ManureScoreUpdate) (dup_key : Bool) :
    Except ℕ (List ManureScore) :=
  match auth_guard u false false with
  | some c => .error c
  | none => ms_update_entry docs entry_id upd dup_key

/-- Router `manure_score.py` `delete_manure_score`. -/
def ms_delete_endpoint (u : User) (_farms : List Farm) (docs : List ManureScore)
    (entry_id : String) : Except ℕ (List ManureScore) :=
  match auth_guard u false false with
  | some c => .error c
  | none => ms_delete_entry docs entry_id

/-- Router `manure_score.py` `get_manure_score`
(`allow_read_only=True`, then the controller's farm check). -/
def ms_get_endpoint (u : User) (farms : List Farm) (docs : List ManureScore)
    (entry_id : String) : Except ℕ ManureScore :=
  match auth_guard u false true with
  | some c => .error c
  | none => ms_get_entry farms docs entry_id u

/-- Python truthiness of an optional string query parameter: `if unit:` treats
both `None` and `""` as "no filter". -/
def norm_opt_str : Option String → Option String
  | some "" => none
  | x => x

/-- `utils.py` `build_date_range_filter` applied to a document date:
inclusive `$gte`/`$lte` bounds, absent bounds unconstrained. -/
def date_in_range (start_date end_date : Option ℤ) (d : ℤ) : Bool :=
  (match start_date with | none => true | some a => decide (a ≤ d))
    && (match end_date with | none => true | some b => decide (d ≤ b))

/-- The non-farm filters of `list_entries`: unit, diet, date range. -/
def ms_base_match (unit? diet? : Option String) (start_date end_date : Option ℤ)
    (d : ManureScore) : Bool :=
  (match norm_opt_str unit? with | none => true | some s => d.unit == s)
    && (match norm_opt_str diet? with | none => true | some s => d.diet == some s)
    && date_in_range start_date end_date d.date

/-- Mongo's `.sort("date")` on the query result. -/
def ms_sort_by_date (l : List ManureScore) : List ManureScore :=
  List.insertionSort (fun a b => a.date ≤ b.date) l

/-- `manure_score/controllers.py` `list_entries`: admins get no farm
restriction beyond an explicit `farm_id` filter; non-admins are restricted to
their accessible set, with the source's `["__none__"]` sentinel when that set
is empty and the empty-result short-circuit for an inaccessible explicit
`farm_id`. -/
def ms_list_entries (u : User) (farms : List Farm) (docs : List ManureScore)
    (unit? : Option String) (start_date end_date : Option ℤ)
    (farm_id? diet? : Option String) : List ManureScore :=
  let base := ms_base_match unit? diet? start_date end_date
  if u.is_admin then
    match norm_opt_str farm_id? with
    | some fid => ms_sort_by_date (docs.filter fun d => base d && d.farm_id == fid)
    | none => ms_sort_by_date (docs.filter base)
  else
    let acc := get_accessible_farm_ids u farms
    match norm_opt_str farm_id? with
    | some fid =>
      if acc.contains fid then ms_sort_by_date (docs.filter fun d => base d && d.farm_id == fid)
      else []
    | none =>
      let ids := if acc.isEmpty then ["__none__"] else acc
      ms_sort_by_date (docs.filter fun d => base d && ids.contains d.farm_id)

/-! Diet-cost documents and their update path
(`project/api/v1/diet_cost/controllers.py`, `models/diet_cost.py`). -/

/-- `models/diet_cost.py` `DietCost` document. At construction the two
`_per_phase` fields are always overwritten by the `mode="before"` validators
with `_compute_phase` of the sibling raw inputs. -/
structure DietCost where
  id : String
  date : ℤ
  unit : String
  farm_id : String
  diet : Option String
  cost_mn_per_ton : Option ℚ
  cost_ms_per_ton : Option ℚ
  time_in_diet_days : Option ℕ
  cost_mn_per_phase : ℚ
  cost_ms_per_phase : ℚ
deriving DecidableEq, Repr

/-- `diet_cost/schemas.py` `DietCostUpdate` (outer `Option` = present in the
payload, inner value = the assigned, possibly-null, value). -/
structure DietCostUpdate where
  diet : Option (Option String)
  cost_mn_per_ton : Option (Option ℚ)
  cost_ms_per_ton : Option (Option ℚ)
  time_in_diet_days : Option (Option ℕ)
deriving DecidableEq, Repr

/-- `apply_updates` specialised to the diet-cost document. -/
def dc_apply_updates (d : DietCost) (u : DietCostUpdate) : DietCost :=
  { d with
    diet := u.diet.getD d.diet,
    cost_mn_per_ton := u.cost_mn_per_ton.getD d.cost_mn_per_ton,
    cost_ms_per_ton := u.cost_ms_per_ton.getD d.cost_ms_per_ton,
    time_in_diet_days := u.time_in_diet_days.getD d.time_in_diet_days }

/-- `diet_cost/controllers.py` `update_entry`: apply the set fields, run the
uniqueness conflict check, save. Faithfully to the source, no recomputation
of `cost_mn_per_phase`/`cost_ms_per_phase` happens anywhere on this path
(the model's validators only run at construction, and `Document.save`
does not re-validate). -/
def dc_update_entry (docs : List DietCost) (entry_id : String)
    (u : DietCostUpdate) (dup_key : Bool) : Except ℕ (List DietCost) :=
  match docs.find? fun d => d.id == entry_id with
  | none => .error 404
  | some doc0 =>
    let doc1 := dc_apply_updates doc0 u
    if (docs.find? fun o => o.farm_id == doc1.farm_id && o.date == doc1.date
        && o.diet == doc1.diet && o.id != doc0.id).isSome then .error 409
    else if dup_key then .error 409
    else .ok (docs.map fun d => if d.id == doc0.id then doc1 else d)

/-! Farm CRUD, sharing, and the deletion cascade
(`project/api/v1/farm/controllers.py`, schemas in `farm/schemas.py`). -/

/-- `models/feed_dry_matter.py` `FeedDryMatter`: the document has no derived
fields; only the identity and the farm reference participate in any verified
property, so the composition percentages are omitted. -/
structure FeedDryMatter where
  id : String
  farm_id : String
  date : ℤ
deriving DecidableEq, Repr

/-- `models/environment.py` `Environment` document; `itu_real` is the cached
derived field the `_ensure_itu` validator computes via `_calc_itu`. -/
structure Environment where
  id : String
  date : ℤ
  unit : String
  farm_id : String
  rainfall_mm : Option ℚ
  temperature_noon_c : Option ℚ
  relative_humidity_pct : Option ℚ
  itu_real : ℚ
deriving DecidableEq, Repr

/-- The application state seen by the farm operations: the farm and user
collections plus the dependent measurement collections. `environment` stands
in for every measurement collection `delete_farm` does not touch (factory,
granulometry, penn state, scale, storage inspection, trough score behave
identically: the source only imports and deletes `ManureScore`,
`FeedDryMatter` and `DietCost`). `users` is the set of registered user
e-mails consulted by `User.find_one(User.email == e)`. -/
structure AppDB where
  farms : List Farm
  users : List String
  manure_score : List ManureScore
  feed_dry_matter : List FeedDryMatter
  diet_cost : List DietCost
  environment : List Environment
deriving DecidableEq, Repr

/-- `farm/schemas.py` `FarmCreate` (after geolocation coercion). -/
structure FarmCreatePayload where
  name : String
  country : String
  state_province : String
  city : Option String
  owner_name : Option String
  notes : Option String
  lat_long : Option (ℚ × ℚ)
deriving DecidableEq, Repr

/-- `farm/controllers.py` `create_farm`: the owner is the acting user, and
`shared_with` starts empty. The payload's `city`/`owner_name` are passed to
the `Farm` constructor, which has no such fields and drops the extra keys. -/
def create_farm (farms : List Farm) (p : FarmCreatePayload)
    (owner_email new_id : String) : List Farm :=
  let doc : Farm :=
    { id := new_id, name := p.name, country := p.country,
      state_province := p.state_province, owner_email := owner_email,
      notes := p.notes, lat_long := p.lat_long, shared_with := [] }
  farms ++ [doc]

/-- `farm/schemas.py` `FarmUpdate`: the payload exposes neither `owner_email`
nor `shared_with`. Outer `Option` = present in the payload. -/
structure FarmUpdatePayload where
  name : Option String
  country : Option String
  state_province : Option String
  city : Option String
  owner_name : Option String
  notes : Option (Option String)
  lat_long : Option (Option (ℚ × ℚ))
deriving DecidableEq, Repr

/-- Applying a `FarmUpdate` to the farm document. A payload that sets `city`
or `owner_name` faults: the `Farm` document has no such field, so the
`setattr` in `update_farm` raises and nothing is persisted. -/
def apply_farm_update (f : Farm) (u : FarmUpdatePayload) : Except Unit Farm :=
  if u.city.isSome || u.owner_name.isSome then .error ()
  else .ok { f with
    name := u.name.getD f.name,
    country := u.country.getD f.country,
    state_province := u.state_province.getD f.state_province,
    notes := u.notes.getD f.notes,
    lat_long := u.lat_long.getD f.lat_long }

/-- `farm/controllers.py` `update_farm`: owner-only; the faulting
`apply_farm_update` branch surfaces as an unhandled server error (500) with
the stored document unchanged. -/
def update_farm (farms : List Farm) (entry_id user_email : String)
    (u : FarmUpdatePayload) : Except ℕ (List Farm) :=
  match farms.find? fun f => f.id == entry_id with
  | none => .error 404
  | some doc =>
    if !(user_email == doc.owner_email) then .error 403
    else
      match apply_farm_update doc u with
      | .error _ => .error 500
      | .ok doc2 => .ok (farms.map fun f => if f.id == doc.id then doc2 else f)

/-- `farm/controllers.py` `delete_farm`: owner-only; then three independent
best-effort bulk deletes (`ManureScore`, `FeedDryMatter`, `DietCost`), each
wrapped in its own `try/except Exception: pass` — the `fail_*` flags model a
storage failure of the corresponding bulk delete, which leaves that
collection unchanged and is swallowed — and finally the farm document itself
is deleted. No other collection is touched. -/
def delete_farm (db : AppDB) (entry_id user_email : String)
    (fail_ms fail_fdm fail_dc : Bool) : Except ℕ AppDB :=
  match db.farms.find? fun f => f.id == entry_id with
  | none => .error 404
  | some doc =>
    if !(user_email == doc.owner_email) then .error 403
    else .ok { db with
      manure_score :=
        if fail_ms then db.manure_score
        else db.manure_score.filter fun d => !(d.farm_id == entry_id)
      feed_dry_matter :=
        if fail_fdm then db.feed_dry_matter
        else db.feed_dry_matter.filter fun d => !(d.farm_id == entry_id)
      diet_cost :=
        if fail_dc then db.diet_cost
        else db.diet_cost.filter fun d => !(d.farm_id == entry_id)
      farms := db.farms.filter fun f => !(f.id == entry_id) }

/-- `farm/controllers.py` `_normalize_emails`:
`sorted({e.strip().lower() for e in emails if e and e.strip()})`. -/
def normalize_emails (emails : Option (List String)) : List String :=
  match emails with
  | none => []
  | some es =>
    (((es.filter fun e => !(trimStr e == "")).map fun e =>
      lowerStr (trimStr e)).dedup).insertionSort strLeR

/-- `farm/controllers.py` `share_farm`: owner-only; normalized add-list minus
the owner's own e-mail, kept only where a `User` record exists; normalized
remove-list; `shared_with := sorted((current ∪ valid_add) − remove)`.
Returns the persisted farm list and the updated document. -/
def share_farm (farms : List Farm) (users : List String)
    (entry_id owner_email : String) (add remove : Option (List String)) :
    Except ℕ (List Farm × Farm) :=
  match farms.find? fun f => f.id == entry_id with
  | none => .error 404
  | some doc =>
    if !(owner_email == doc.owner_email) then .error 403
    else
      let add_n := (normalize_emails add).filter fun e => !(e == owner_email)
      let valid_add := add_n.filter fun e => users.contains e
      let remove_n := normalize_emails remove
      let new_shared := (((doc.shared_with ++ valid_add).dedup).filter fun e =>
        !(remove_n.contains e)).insertionSort strLeR
      let doc2 := { doc with shared_with := new_shared }
      .ok (farms.map (fun f => if f.id == doc.id then doc2 else f), doc2)

/-- Error code of an operation outcome (`none` when it succeeded). -/
def exceptCode {α : Type} : Except ℕ α → Option ℕ
  | .error c => some c
  | .ok _ => none

/-! Concrete fixtures used by witnesses and counterexamples. -/

/-- A farm owned by `owner@x.com`, shared with nobody. -/
def farm0 : Farm :=
  { id := "f1", name := "Green Valley", country := "Brazil",
    state_province := "SP", owner_email := "owner@x.com", notes := none,
    lat_long := none, shared_with := [] }

/-- A non-admin, active, authorized, non-read-only user with no access to
`farm0`. -/
def mallory : User :=
  { email := "m@x.com", is_admin := false, is_active := true,
    is_authorized := true, read_only := false }

/-- An admin user. -/
def adminUser : User :=
  { email := "root@x.com", is_admin := true, is_active := true,
    is_authorized := true, read_only := false }

/-- The non-admin user owning `farm0`. -/
def ownerUser : User :=
  { email := "owner@x.com", is_admin := false, is_active := true,
    is_authorized := true, read_only := false }

/-- A manure-score record belonging to `farm0`. -/
def ms0 : ManureScore :=
  { id := "e1", date := 0, unit := "CAUA", farm_id := "f1",
    diet := some "ADAPTACAO", score_1 := 1, score_2 := 4, score_3 := 6,
    score_3_5 := 2, score_4 := 0, total := 13 }

/-- A second manure-score record with a different uniqueness key. -/
def ms1 : ManureScore :=
  { id := "e2", date := 1, unit := "CAUA", farm_id := "f1",
    diet := some "ADAPTACAO", score_1 := 0, score_2 := 0, score_3 := 5,
    score_3_5 := 0, score_4 := 0, total := 5 }

/-- A create payload colliding with `ms0`'s `(farm_id, date, diet)` key. -/
def msc0 : ManureScoreCreate :=
  { date := 0, unit := "CAUA", farm_id := "f1", diet := some "ADAPTACAO",
    score_1 := 2, score_2 := 0, score_3 := 0, score_3_5 := 0, score_4 := 0 }

/-- A create payload whose key collides with no stored record. -/
def msc1 : ManureScoreCreate :=
  { date := 7, unit := "CAUA", farm_id := "f1", diet := some "CRESCIMENTO",
    score_1 := 2, score_2 := 0, score_3 := 0, score_3_5 := 0, score_4 := 0 }

/-- An update moving `ms1` onto `ms0`'s key (`date` is not updatable for this
resource, so the collision is reached by aligning the diet of a same-date
pair); used with `ms2` below. -/
def ms2 : ManureScore :=
  { id := "e3", date := 0, unit := "CAUA", farm_id := "f1",
    diet := some "CRESCIMENTO", score_1 := 0, score_2 := 1, score_3 := 0,
    score_3_5 := 0, score_4 := 0, total := 1 }

/-- Update payload setting the diet to `ADAPTACAO`. -/
def msu_to_adapt : ManureScoreUpdate :=
  { ms_empty_update with diet := some (some "ADAPTACAO") }

/-- An environment record belonging to `farm0` (`delete_farm` never touches
this collection). -/
def env0 : Environment :=
  { id := "v1", date := 0, unit := "CAUA", farm_id := "f1",
    rainfall_mm := none, temperature_noon_c := none,
    relative_humidity_pct := none, itu_real := 0 }

/-- Application state holding `farm0`, one manure-score record and one
environment record, both referencing the farm. -/
def db0 : AppDB :=
  { farms := [farm0], users := [], manure_score := [ms0],
    feed_dry_matter := [], diet_cost := [], environment := [env0] }

/-- A diet-cost record as created by the model validators:
`cost_mn_per_phase = 620 * 16 = 9920`, `cost_ms_per_phase = 1089 * 16 = 17424`. -/
def dc0 : DietCost :=
  { id := "d1", date := 0, unit := "CAUA", farm_id := "f1",
    diet := some "ADAPTACAO", cost_mn_per_ton := some 620,
    cost_ms_per_ton := some 1089, time_in_diet_days := some 16,
    cost_mn_per_phase := 9920, cost_ms_per_phase := 17424 }

/-- A partial diet-cost update changing only `cost_mn_per_ton` to `1000`. -/
def dc_upd0 : DietCostUpdate :=
  { diet := none, cost_mn_per_ton := some (some 1000),
    cost_ms_per_ton := none, time_in_diet_days := none }

/-- The document persisted by `dc_update_entry [dc0] "d1" dc_upd0 false`. -/
def dc1 : DietCost := dc_apply_updates dc0 dc_upd0

/-- Create payload for farm-operation witnesses. -/
def fc0 : FarmCreatePayload :=
  { name := "North Field", country := "Brazil", state_province := "MG",
    city := none, owner_name := none, notes := none, lat_long := none }

/-- Update payload for farm-operation witnesses: only `name` is set. -/
def fu0 : FarmUpdatePayload :=
  { name := some "Renamed", country := none, state_province := none,
    city := none, owner_name := none, notes := none, lat_long := none }

/-- The invariant of claim C8: the owner is never a member of the sharing
list. -/
def farm_inv (f : Farm) : Prop := f.owner_email ∉ f.shared_with

/-- Registered user e-mails for the sharing witness. -/
def users0 : List String := ["m@x.com"]

/-- Add-list for the sharing witness: a padded mixed-case known e-mail, an
unknown e-mail, and the owner's own e-mail. -/
def add_list0 : Option (List String) := some [" M@X.com ", "ghost@x.com", "owner@x.com"]

/-- `farm0` after sharing with `m@x.com`. -/
def farm0_shared : Farm := { farm0 with shared_with := ["m@x.com"] }

/-- `farm0` after the rename update `fu0`. -/
def farm0_renamed : Farm := { farm0 with name := "Renamed" }

/-- `db0` after the owner deletes `farm0` with all three cascades succeeding. -/
def db0_deleted : AppDB :=
  { farms := [], users := [], manure_score := [], feed_dry_matter := [],
    diet_cost := [], environment := [env0] }

/-! Order facts about the Python string order, needed for sortedness
statements. -/

theorem lexLe_total (as bs : List Char) : lexLe as bs = true ∨ lexLe bs as = true := by
  induction as generalizing bs with
  | nil => left; rfl
  | cons a as ih =>
    cases bs with
    | nil => right; rfl
    | cons b bs =>
      rcases Nat.lt_trichotomy a.toNat b.toNat with h | h | h
      · left; simp [lexLe, h]
      · have h1 : ¬ a.toNat < b.toNat := by omega
        have h2 : ¬ b.toNat < a.toNat := by omega
        rcases ih bs with hc | hc
        · left; simp [lexLe, h1, h2, hc]
        · right; simp [lexLe, h1, h2, hc]
      · right; simp [lexLe, h]

theorem lexLe_trans (as bs cs : List Char) (hab : lexLe as bs = true)
    (hbc : lexLe bs cs = true) : lexLe as cs = true := by
  induction as generalizing bs cs with
  | nil => rfl
  | cons a as ih =>
    cases bs with
    | nil => simp [lexLe] at hab
    | cons b bs =>
      cases cs with
      | nil => simp [lexLe] at hbc
      | cons c cs =>
        by_cases h1 : a.toNat < b.toNat
        · by_cases h2 : b.toNat < c.toNat
          · simp [lexLe, show a.toNat < c.toNat by omega]
          · by_cases h3 : c.toNat < b.toNat
            · simp [lexLe, h2, h3] at hbc
            · simp [lexLe, show a.toNat < c.toNat by omega]
        · by_cases h4 : b.toNat < a.toNat
          · simp [lexLe, h1, h4] at hab
          · by_cases h2 : b.toNat < c.toNat
            · simp [lexLe, show a.toNat < c.toNat by omega]
            · by_cases h3 : c.toNat < b.toNat
              · simp [lexLe, h2, h3] at hbc
              · have hab' : lexLe as bs = true := by simpa [lexLe, h1, h4] using hab
                have hbc' : lexLe bs cs = true := by simpa [lexLe, h2, h3] using hbc
                have hx : ¬ a.toNat < c.toNat := by omega
                have hy : ¬ c.toNat < a.toNat := by omega
                simp [lexLe, hx, hy, ih bs cs hab' hbc']

theorem strLeR_total (a b : String) : strLeR a b ∨ strLeR b a :=
  lexLe_total a.data b.data

theorem strLeR_trans (a b c : String) (h1 : strLeR a b) (h2 : strLeR b c) :
    strLeR a c := lexLe_trans a.data b.data c.data h1 h2

theorem sorted_insertionSort_strLeR (l : List String) :
    List.Sorted strLeR (List.insertionSort strLeR l) :=
  @List.sorted_insertionSort String strLeR _ ⟨strLeR_total⟩
    ⟨fun _ _ _ => strLeR_trans _ _ _⟩ l

theorem mem_insertionSort_strLeR (x : String) (l : List String) :
    x ∈ List.insertionSort strLeR l ↔ x ∈ l :=
  (List.perm_insertionSort strLeR l).mem_iff

/-- C9: the Environment derived metric follows
`itu_real = 0.8·T + T·((RH−14.3)/100) + 46.3`, is `0` when either input is
missing, and evaluates to `86.844` at `T = 32`, `RH = 61`. -/
theorem C9_environment_itu :
    (∀ t rh : ℚ, calc_itu (some t) (some rh) = 0.8 * t + t * ((rh - 14.3) / 100) + 46.3)
    ∧ (∀ rh : Option ℚ, calc_itu none rh = 0)
    ∧ (∀ t : Option ℚ, calc_itu t none = 0)
    ∧ calc_itu (some 32) (some 61) = 86.844 := by
  refine ⟨fun t rh => rfl, fun rh => rfl, fun t => ?_, by norm_num [calc_itu]⟩
  cases t <;> rfl

/-- C4: every Derived-Metrics rule is a total function in this embedding, and
each one yields `0` (never an error) when its denominator is zero or an
operand is absent, for every resource type: diet cost, environment, factory
(ratios and both deviations), granulometry, manure score, Penn State plain
and diet/forage, scale, storage inspection, trough score. -/
theorem C4_derived_metrics_zero_on_missing :
    (∀ c : Option ℚ, compute_phase c none = 0)
    ∧ (∀ n : Option ℕ, compute_phase none n = 0)
    ∧ (∀ rh : Option ℚ, calc_itu none rh = 0)
    ∧ (∀ t : Option ℚ, calc_itu t none = 0)
    ∧ (∀ n : Option ℚ, ratio_pct n none = 0)
    ∧ (∀ n : Option ℚ, ratio_pct n (some 0) = 0)
    ∧ (∀ t : ℚ, loading_deviation_pct t none = 0)
    ∧ (∀ t : ℚ, loading_deviation_pct t (some 0) = 0)
    ∧ (∀ p : Option ℚ, supply_deviation_pct p 0 = 0)
    ∧ (∀ s : ℚ, supply_deviation_pct none s = 0)
    ∧ (∀ v : ℕ, part_pct v 0 = 0)
    ∧ granulometry_index 0 0 0 0 0 = 0
    ∧ (∀ v : ℕ, ms_pct v 0 = 0)
    ∧ ms_desirable_pct 0 0 = 0
    ∧ ps_desirable_pct none none none = 0
    ∧ (∀ eff : ℚ, calc_fdnef none eff = 0)
    ∧ (∀ f : ℚ, calc_fdnef (some f) 0 = 0)
    ∧ (∀ n : ℤ, (scale_calc n 0).2 = 0)
    ∧ (∀ c : Option ℤ, days_without_use none c = 0)
    ∧ (∀ d : Option ℤ, days_without_use d none = 0) := by
  refine ⟨fun c => ?_, fun n => ?_, fun rh => rfl, fun t => ?_, fun n => ?_,
    fun n => ?_, fun t => rfl, fun t => ?_, fun p => ?_, fun s => rfl,
    fun v => rfl, by norm_num [granulometry_index], fun v => rfl,
    by norm_num [ms_desirable_pct, roundTo],
    by norm_num [ps_desirable_pct, roundTo], fun eff => rfl, fun f => ?_,
    fun n => ?_, fun c => rfl, fun d => ?_⟩
  · simp [compute_phase]
  · simp [compute_phase]
  · cases t <;> rfl
  · cases n <;> simp [ratio_pct]
  · cases n <;> simp [ratio_pct]
  · simp [loading_deviation_pct]
  · cases p <;> simp [supply_deviation_pct]
  · simp [calc_fdnef]
  · simp [scale_calc]
  · cases d <;> rfl

/-- C1 counterexample: `mallory` is a non-admin user who cannot read
`farm0` (the get endpoint answers 403 Forbidden for record `e1`), yet the
update and delete endpoints accept her request on that very record instead of
failing Forbidden — update and delete do not enforce get's read rule. -/
theorem C1_counterexample :
    mallory.is_admin = false
    ∧ farm_readable mallory.email farm0 = false
    ∧ ms_get_endpoint mallory [farm0] [ms0] "e1" = .error 403
    ∧ ms_update_endpoint mallory [farm0] [ms0] "e1" ms_empty_update false = .ok [ms0]
    ∧ ms_delete_endpoint mallory [farm0] [ms0] "e1" = .ok [] :=
  ⟨rfl, rfl, rfl, rfl, rfl⟩

/-- C1 (amended): for every measurement record, the update and delete
endpoints apply only the `allow_read_only=False` guard to the acting user and
then run the user-free controller: they never consult the record's farm, and
their only failures are 404 (NotFound) and 409 (Conflict) — never the 403 the
claim requires for a user who may not read the farm. Only `get_entry`
enforces the read-authorization rule. -/
theorem C1_update_delete_skip_farm_auth (u : User) (farms : List Farm)
    (docs : List ManureScore) (eid : String) (upd : ManureScoreUpdate)
    (dup : Bool) (hguard : auth_guard u false false = none) :
    ms_update_endpoint u farms docs eid upd dup = ms_update_entry docs eid upd dup
    ∧ ms_delete_endpoint u farms docs eid = ms_delete_entry docs eid
    ∧ (∀ c, ms_update_entry docs eid upd dup = .error c → c = 404 ∨ c = 409)
    ∧ (∀ c, ms_delete_entry docs eid = .error c → c = 404)
    ∧ (∀ doc farm, u.is_admin = false →
        docs.find? (fun d => d.id == eid) = some doc →
        farms.find? (fun f => f.id == doc.farm_id) = some farm →
        farm_readable u.email farm = false →
        ms_get_entry farms docs eid u = .error 403) := by
  refine ⟨?_, ?_, ?_, ?_, ?_⟩
  · simp [ms_update_endpoint, hguard]
  · simp [ms_delete_endpoint, hguard]
  · intro c h
    unfold ms_update_entry at h
    cases hf : docs.find? (fun d => d.id == eid) with
    | none => rw [hf] at h; simp only [Except.error.injEq] at h; omega
    | some doc0 =>
      rw [hf] at h
      dsimp only at h
      split at h
      · simp only [Except.error.injEq] at h; omega
      · split at h
        · simp only [Except.error.injEq] at h; omega
        · exact absurd h (by simp)
  · intro c h
    unfold ms_delete_entry at h
    cases hf : docs.find? (fun d => d.id == eid) with
    | none => rw [hf] at h; simp only [Except.error.injEq] at h; omega
    | some doc0 => rw [hf] at h; exact absurd h (by simp)
  · intro doc farm hadm hfd hff hread
    simp [ms_get_entry, hfd, hadm, hff, hread]

/-- C1 witness: the amended theorem applied to `mallory`, `farm0`, `ms0`. -/
theorem C1_witness :
    auth_guard mallory false false = none
    ∧ (ms_update_endpoint mallory [farm0] [ms0] "e1" ms_empty_update false
        = ms_update_entry [ms0] "e1" ms_empty_update false
      ∧ ms_delete_endpoint mallory [farm0] [ms0] "e1" = ms_delete_entry [ms0] "e1"
      ∧ (∀ c, ms_update_entry [ms0] "e1" ms_empty_update false = .error c → c = 404 ∨ c = 409)
      ∧ (∀ c, ms_delete_entry [ms0] "e1" = .error c → c = 404)
      ∧ (∀ doc farm, mallory.is_admin = false →
          ([ms0].find? (fun d => d.id == "e1")) = some doc →
          ([farm0].find? (fun f => f.id == doc.farm_id)) = some farm →
          farm_readable mallory.email farm = false →
          ms_get_entry [farm0] [ms0] "e1" mallory = .error 403)) :=
  ⟨rfl, C1_update_delete_skip_farm_auth mallory [farm0] [ms0] "e1" ms_empty_update false rfl⟩

/-- C2: uniqueness semantics of the measurement CRUD skeleton (shown on the
cited manure-score controller, key `(farm_id, date, diet)`):
(a) a create whose key equals an existing record's key fails 409 Conflict;
(b) an update whose applied key collides with a different record fails 409;
(c) an update that keeps the record's own key passes the uniqueness pre-check
and succeeds when the store is key-unique and the save is accepted;
(d) a storage-layer duplicate-key rejection on insert or save surfaces as the
same 409 Conflict as the pre-check. -/
theorem C2_uniqueness_conflicts :
    (∀ (farms : List Farm) (docs : List ManureScore) (p : ManureScoreCreate)
      (nid : String) (dup : Bool),
      (∃ f ∈ farms, f.id = p.farm_id) →
      (∃ d ∈ docs, d.farm_id = p.farm_id ∧ d.date = p.date ∧ d.diet = p.diet) →
      ms_create_entry farms docs p nid dup = .error 409)
    ∧ (∀ (docs : List ManureScore) (eid : String) (upd : ManureScoreUpdate)
      (dup : Bool) (doc0 : ManureScore),
      docs.find? (fun d => d.id == eid) = some doc0 →
      (∃ o ∈ docs, o.id ≠ doc0.id ∧ ms_key o = ms_key (ms_apply_updates doc0 upd)) →
      ms_update_entry docs eid upd dup = .error 409)
    ∧ (∀ (docs : List ManureScore) (eid : String) (upd : ManureScoreUpdate)
      (doc0 : ManureScore),
      docs.find? (fun d => d.id == eid) = some doc0 →
      ms_key (ms_apply_updates doc0 upd) = ms_key doc0 →
      (∀ o ∈ docs, ms_key o = ms_key doc0 → o.id = doc0.id) →
      exceptCode (ms_update_entry docs eid upd false) = none)
    ∧ (∀ (farms : List Farm) (docs : List ManureScore) (p : ManureScoreCreate)
      (nid : String),
      (∃ f ∈ farms, f.id = p.farm_id) →
      ms_create_entry farms docs p nid true = .error 409)
    ∧ (∀ (docs : List ManureScore) (eid : String) (upd : ManureScoreUpdate)
      (doc0 : ManureScore),
      docs.find? (fun d => d.id == eid) = some doc0 →
      ms_update_entry docs eid upd true = .error 409) := by
  refine ⟨?_, ?_, ?_, ?_, ?_⟩
  · intro farms docs p nid dup hfarm hdup
    obtain ⟨f, hfmem, hfid⟩ := hfarm
    obtain ⟨d, hdmem, hd1, hd2, hd3⟩ := hdup
    have h1 : (farms.find? fun f => f.id == p.farm_id).isSome :=
      List.find?_isSome.mpr ⟨f, hfmem, by simp [hfid]⟩
    have h2 : (docs.find? fun d =>
        d.farm_id == p.farm_id && d.date == p.date && d.diet == p.diet).isSome :=
      List.find?_isSome.mpr ⟨d, hdmem, by simp [hd1, hd2, hd3]⟩
    cases hc1 : farms.find? (fun f => f.id == p.farm_id) with
    | none => rw [hc1] at h1; simp at h1
    | some _ =>
      cases hc2 : docs.find? (fun d =>
          d.farm_id == p.farm_id && d.date == p.date && d.diet == p.diet) with
      | none => rw [hc2] at h2; simp at h2
      | some _ => simp [ms_create_entry, hc1, hc2]
  · intro docs eid upd dup doc0 hfind hconf
    obtain ⟨o, homem, hoid, hokey⟩ := hconf
    have hk := hokey
    simp only [ms_key, Prod.mk.injEq] at hk
    have hc : (docs.find? fun o => o.farm_id == (ms_apply_updates doc0 upd).farm_id
        && o.date == (ms_apply_updates doc0 upd).date
        && o.diet == (ms_apply_updates doc0 upd).diet
        && o.id != doc0.id).isSome :=
      List.find?_isSome.mpr ⟨o, homem, by simp [hk.1, hk.2.1, hk.2.2, hoid]⟩
    simp [ms_update_entry, hfind, hc]
  · intro docs eid upd doc0 hfind hkey huniq
    have hnone : (docs.find? fun o => o.farm_id == (ms_apply_updates doc0 upd).farm_id
        && o.date == (ms_apply_updates doc0 upd).date
        && o.diet == (ms_apply_updates doc0 upd).diet
        && o.id != doc0.id) = none := by
      rw [List.find?_eq_none]
      intro o homem hpred
      simp only [Bool.and_eq_true, beq_iff_eq, bne_iff_ne] at hpred
      have : ms_key o = ms_key doc0 := by
        rw [← hkey]
        simp only [ms_key, Prod.mk.injEq]
        exact ⟨hpred.1.1.1, hpred.1.1.2, hpred.1.2⟩
      exact hpred.2 (huniq o homem this)
    simp [ms_update_entry, hfind, hnone, exceptCode]
  · intro farms docs p nid hfarm
    obtain ⟨f, hfmem, hfid⟩ := hfarm
    have h1 : (farms.find? fun f => f.id == p.farm_id).isSome :=
      List.find?_isSome.mpr ⟨f, hfmem, by simp [hfid]⟩
    cases hc1 : farms.find? (fun f => f.id == p.farm_id) with
    | none => rw [hc1] at h1; simp at h1
    | some _ =>
      cases hc2 : docs.find? (fun d =>
          d.farm_id == p.farm_id && d.date == p.date && d.diet == p.diet) with
      | none => simp [ms_create_entry, hc1, hc2]
      | some _ => simp [ms_create_entry, hc1, hc2]
  · intro docs eid upd doc0 hfind
    cases hc : docs.find? (fun o => o.farm_id == (ms_apply_updates doc0 upd).farm_id
        && o.date == (ms_apply_updates doc0 upd).date
        && o.diet == (ms_apply_updates doc0 upd).diet
        && o.id != doc0.id) with
    | none => simp [ms_update_entry, hfind, hc]
    | some _ => simp [ms_update_entry, hfind, hc]

/-- C2 witness: each clause of the uniqueness theorem applied to concrete
stores built from `farm0`, `ms0`, `ms1`, `ms2`. -/
theorem C2_witness :
    ms_create_entry [farm0] [ms0] msc0 "x" false = .error 409
    ∧ ms_update_entry [ms0, ms2] "e3" msu_to_adapt false = .error 409
    ∧ exceptCode (ms_update_entry [ms0, ms1] "e1" ms_empty_update false) = none
    ∧ ms_create_entry [farm0] [] msc1 "x" true = .error 409
    ∧ ms_update_entry [ms0] "e1" ms_empty_update true = .error 409 :=
  ⟨C2_uniqueness_conflicts.1 [farm0] [ms0] msc0 "x" false (by decide) (by decide),
   C2_uniqueness_conflicts.2.1 [ms0, ms2] "e3" msu_to_adapt false ms2 (by decide)
     ⟨ms0, by decide, by decide, by decide⟩,
   C2_uniqueness_conflicts.2.2.1 [ms0, ms1] "e1" ms_empty_update ms0 (by decide)
     (by decide) (by decide),
   C2_uniqueness_conflicts.2.2.2.1 [farm0] [] msc1 "x" (by decide),
   C2_uniqueness_conflicts.2.2.2.2 [ms0] "e1" ms_empty_update ms0 (by decide)⟩

/-- C3: the farm access resolver returns the empty set for admins — the
sentinel for "unrestricted", and the admin branch of `list_entries` indeed
applies no farm filtering (its result is the base-filtered store, independent
of the farm table) — while for a non-admin it returns, duplicate-free,
exactly the ids of the farms whose `owner_email` is the user's e-mail or
whose `shared_with` contains it. -/
theorem C3_accessible_farm_ids :
    (∀ (u : User) (farms : List Farm), u.is_admin = true →
      get_accessible_farm_ids u farms = [])
    ∧ (∀ (u : User) (farms : List Farm), (get_accessible_farm_ids u farms).Nodup)
    ∧ (∀ (u : User) (farms : List Farm) (fid : String), u.is_admin = false →
      (fid ∈ get_accessible_farm_ids u farms ↔
        ∃ f ∈ farms, f.id = fid ∧ (f.owner_email = u.email ∨ u.email ∈ f.shared_with)))
    ∧ (∀ (u : User) (farms farms2 : List Farm) (docs : List ManureScore)
      (unit? : Option String) (s e : Option ℤ) (diet? : Option String),
      u.is_admin = true →
      ms_list_entries u farms docs unit? s e none diet?
        = ms_sort_by_date (docs.filter (ms_base_match unit? diet? s e))
      ∧ ms_list_entries u farms docs unit? s e none diet?
        = ms_list_entries u farms2 docs unit? s e none diet?) := by
  refine ⟨?_, ?_, ?_, ?_⟩
  · intro u farms h
    simp [get_accessible_farm_ids, h]
  · intro u farms
    unfold get_accessible_farm_ids
    split
    · exact List.nodup_nil
    · exact List.nodup_dedup _
  · intro u farms fid h
    simp only [get_accessible_farm_ids, h, Bool.false_eq_true, if_false,
      List.mem_dedup, List.mem_map, List.mem_filter, Bool.or_eq_true,
      beq_iff_eq]
    constructor
    · rintro ⟨f, ⟨hmem, hacc⟩, hid⟩
      refine ⟨f, hmem, hid, ?_⟩
      simpa using hacc
    · rintro ⟨f, hmem, hid, hacc⟩
      exact ⟨f, ⟨hmem, by simpa using hacc⟩, hid⟩
  · intro u farms farms2 docs unit? s e diet? h
    have key : ∀ fs : List Farm, ms_list_entries u fs docs unit? s e none diet?
        = ms_sort_by_date (docs.filter (ms_base_match unit? diet? s e)) := by
      intro fs
      simp [ms_list_entries, h, norm_opt_str]
    exact ⟨key farms, (key farms).trans (key farms2).symm⟩

/-- C3 witness: the resolver theorem applied to `adminUser`, `ownerUser`,
`farm0` and a two-record store. -/
theorem C3_witness :
    get_accessible_farm_ids adminUser [farm0] = []
    ∧ ("f1" ∈ get_accessible_farm_ids ownerUser [farm0] ↔
      ∃ f ∈ [farm0], f.id = "f1"
        ∧ (f.owner_email = ownerUser.email ∨ ownerUser.email ∈ f.shared_with))
    ∧ (ms_list_entries adminUser [farm0] [ms0, ms1] none none none none none
        = ms_sort_by_date ([ms0, ms1].filter (ms_base_match none none none none))
      ∧ ms_list_entries adminUser [farm0] [ms0, ms1] none none none none none
        = ms_list_entries adminUser [] [ms0, ms1] none none none none none) :=
  ⟨C3_accessible_farm_ids.1 adminUser [farm0] rfl,
   C3_accessible_farm_ids.2.2.1 ownerUser [farm0] "f1" rfl,
   C3_accessible_farm_ids.2.2.2 adminUser [farm0] [] [ms0, ms1] none none none none rfl⟩

/-- C5 counterexample: the owner deletes `farm0` from a state that also holds
the environment record `env0` with `farm_id = "f1"`; the deletion succeeds
but `env0` survives untouched — the cascade does not span every dependent
resource type (it only covers manure score, feed dry matter and diet cost). -/
theorem C5_counterexample :
    delete_farm db0 "f1" "owner@x.com" false false false =
      .ok { farms := [], users := [], manure_score := [],
            feed_dry_matter := [], diet_cost := [], environment := [env0] }
    ∧ env0.farm_id = "f1" :=
  ⟨rfl, rfl⟩

/-- C5 (amended): deleting a Farm is owner-only and cascades over exactly
three dependent collections — manure score, feed dry matter, diet cost —
removing every record of those collections whose `farm_id` equals the farm's
id; a failure of any one of the three bulk deletes is swallowed (that
collection is left unchanged) without preventing the farm deletion or the
other two cascades; all other measurement collections are left untouched. -/
theorem C5_cascade_three_collections (db : AppDB) (eid email : String)
    (fms ffdm fdc : Bool) (doc : Farm)
    (hfind : db.farms.find? (fun f => f.id == eid) = some doc) :
    (email = doc.owner_email →
      delete_farm db eid email fms ffdm fdc = .ok
        { db with
          farms := db.farms.filter fun f => !(f.id == eid),
          manure_score := if fms then db.manure_score
            else db.manure_score.filter fun d => !(d.farm_id == eid),
          feed_dry_matter := if ffdm then db.feed_dry_matter
            else db.feed_dry_matter.filter fun d => !(d.farm_id == eid),
          diet_cost := if fdc then db.diet_cost
            else db.diet_cost.filter fun d => !(d.farm_id == eid) })
    ∧ (email ≠ doc.owner_email →
      delete_farm db eid email fms ffdm fdc = .error 403) := by
  constructor
  · intro h
    simp [delete_farm, hfind, h]
  · intro h
    simp [delete_farm, hfind, h]

/-- C5 witness: the amended theorem applied to `db0` with the manure-score
bulk delete failing: the farm is removed, the other two cascades run, the
failing collection and the environment collection are unchanged. -/
theorem C5_witness :
    db0.farms.find? (fun f => f.id == "f1") = some farm0
    ∧ ((("owner@x.com" : String) = farm0.owner_email →
        delete_farm db0 "f1" "owner@x.com" true false false = .ok
          { db0 with
            farms := db0.farms.filter fun f => !(f.id == "f1"),
            manure_score := if true then db0.manure_score
              else db0.manure_score.filter fun d => !(d.farm_id == "f1"),
            feed_dry_matter := if false then db0.feed_dry_matter
              else db0.feed_dry_matter.filter fun d => !(d.farm_id == "f1"),
            diet_cost := if false then db0.diet_cost
              else db0.diet_cost.filter fun d => !(d.farm_id == "f1") })
      ∧ (("owner@x.com" : String) ≠ farm0.owner_email →
        delete_farm db0 "f1" "owner@x.com" true false false = .error 403)) :=
  ⟨rfl, C5_cascade_three_collections db0 "f1" "owner@x.com" true false false farm0 rfl⟩

/-- C6: evaluation of the diet-cost update path at the failing input. The
record `dc0` (`cost_mn_per_ton = 620`, `time_in_diet_days = 16`,
`cost_mn_per_phase = 9920`) is updated with `cost_mn_per_ton := 1000`; the
persisted record keeps the stale `cost_mn_per_phase = 9920` instead of the
re-derived `1000 × 16 = 16000`: `update_entry` never re-runs the diet-cost
derivation rule, contradicting the model's own "(computed)" field
documentation and the recompute-on-update skeleton of the sibling
resources. -/
theorem C6_diet_cost_update_stale_phase :
    dc_update_entry [dc0] "d1" dc_upd0 false = .ok [dc1]
    ∧ dc1.cost_mn_per_ton = some 1000
    ∧ dc1.time_in_diet_days = some 16
    ∧ dc1.cost_mn_per_phase = 9920
    ∧ compute_phase dc1.cost_mn_per_ton dc1.time_in_diet_days = 16000
    ∧ dc1.cost_mn_per_phase ≠ compute_phase dc1.cost_mn_per_ton dc1.time_in_diet_days := by
  refine ⟨rfl, rfl, rfl, rfl, ?_, ?_⟩
  · norm_num [dc1, dc_apply_updates, dc0, dc_upd0, compute_phase]
  · norm_num [dc1, dc_apply_updates, dc0, dc_upd0, compute_phase]

/-- C7: sharing a farm fails 403 Forbidden for any acting e-mail other than
the owner's; for the owner it always succeeds and persists
`shared_with = sorted((current ∪ valid_adds) − removes)` where the valid adds
are the normalized add-list minus the owner's own e-mail, kept only where a
user record exists (unknown e-mails silently dropped); and normalization
trims, lower-cases, de-duplicates and sorts. -/
theorem C7_share_farm_semantics :
    (∀ (farms : List Farm) (users : List String) (eid acting : String)
      (add remove : Option (List String)) (doc : Farm),
      farms.find? (fun f => f.id == eid) = some doc →
      acting ≠ doc.owner_email →
      share_farm farms users eid acting add remove = .error 403)
    ∧ (∀ (farms : List Farm) (users : List String) (eid acting : String)
      (add remove : Option (List String)) (doc : Farm),
      farms.find? (fun f => f.id == eid) = some doc →
      acting = doc.owner_email →
      exceptCode (share_farm farms users eid acting add remove) = none)
    ∧ (∀ (farms : List Farm) (users : List String) (eid acting : String)
      (add remove : Option (List String)) (doc : Farm)
      (fs2 : List Farm) (d2 : Farm),
      farms.find? (fun f => f.id == eid) = some doc →
      acting = doc.owner_email →
      share_farm farms users eid acting add remove = .ok (fs2, d2) →
      d2.owner_email = doc.owner_email
      ∧ d2.shared_with.Nodup
      ∧ List.Sorted strLeR d2.shared_with
      ∧ (∀ e, e ∈ d2.shared_with ↔
          ((e ∈ doc.shared_with
            ∨ (e ∈ normalize_emails add ∧ e ≠ acting ∧ e ∈ users))
            ∧ e ∉ normalize_emails remove)))
    ∧ (∀ es : List String,
      (normalize_emails (some es)).Nodup
      ∧ List.Sorted strLeR (normalize_emails (some es))
      ∧ (∀ e, e ∈ normalize_emails (some es) ↔
          ∃ x ∈ es, ¬ trimStr x = "" ∧ e = lowerStr (trimStr x))) := by
  refine ⟨?_, ?_, ?_, ?_⟩
  · intro farms users eid acting add remove doc hfind h
    simp [share_farm, hfind, h]
  · intro farms users eid acting add remove doc hfind h
    simp [share_farm, hfind, h, exceptCode]
  · intro farms users eid acting add remove doc fs2 d2 hfind hown hok
    subst hown
    unfold share_farm at hok
    rw [hfind] at hok
    simp only [beq_self_eq_true, Bool.not_true, Bool.false_eq_true, if_false,
      Except.ok.injEq, Prod.mk.injEq] at hok
    obtain ⟨-, hd2⟩ := hok
    subst hd2
    refine ⟨rfl, (List.perm_insertionSort _ _).nodup_iff.mpr
      ((List.nodup_dedup _).filter _), sorted_insertionSort_strLeR _, ?_⟩
    intro e
    rw [mem_insertionSort_strLeR]
    simp only [List.mem_filter, List.mem_dedup, List.mem_append, Bool.not_eq_true',
      beq_eq_false_iff_ne, ne_eq]
    simp only [List.contains, List.elem_eq_mem, decide_eq_true_eq,
      decide_eq_false_iff_not]
    tauto
  · intro es
    refine ⟨(List.perm_insertionSort _ _).nodup_iff.mpr (List.nodup_dedup _),
      sorted_insertionSort_strLeR _, ?_⟩
    intro e
    rw [normalize_emails, mem_insertionSort_strLeR]
    simp only [List.mem_dedup, List.mem_map, List.mem_filter, Bool.not_eq_true',
      beq_eq_false_iff_ne, ne_eq]
    constructor
    · rintro ⟨x, ⟨hx, hne⟩, hmap⟩
      exact ⟨x, hx, hne, hmap.symm⟩
    · rintro ⟨x, hx, hne, hmap⟩
      exact ⟨x, ⟨hx, hne⟩, hmap.symm⟩

/-- C7 witness: the sharing theorem applied to `farm0`, the user table
`users0`, and an add-list containing a padded mixed-case known e-mail, an
unknown e-mail, and the owner's own e-mail; the persisted list is exactly
`["m@x.com"]`. -/
theorem C7_witness :
    share_farm [farm0] users0 "f1" "m@x.com" add_list0 none = .error 403
    ∧ exceptCode (share_farm [farm0] users0 "f1" "owner@x.com" add_list0 none) = none
    ∧ (farm0_shared.owner_email = farm0.owner_email
      ∧ farm0_shared.shared_with.Nodup
      ∧ List.Sorted strLeR farm0_shared.shared_with
      ∧ (∀ e, e ∈ farm0_shared.shared_with ↔
          ((e ∈ farm0.shared_with
            ∨ (e ∈ normalize_emails add_list0 ∧ e ≠ "owner@x.com" ∧ e ∈ users0))
            ∧ e ∉ normalize_emails none))) :=
  ⟨C7_share_farm_semantics.1 [farm0] users0 "f1" "m@x.com" add_list0 none farm0 rfl
      (by decide),
   C7_share_farm_semantics.2.1 [farm0] users0 "f1" "owner@x.com" add_list0 none farm0
      rfl rfl,
   C7_share_farm_semantics.2.2.1 [farm0] users0 "f1" "owner@x.com" add_list0 none farm0
      [farm0_shared] farm0_shared rfl rfl rfl⟩

/-- A successful `apply_farm_update` never changes the id, the owner or the
sharing list: the update payload type exposes none of them. -/
theorem apply_farm_update_frame (f : Farm) (u : FarmUpdatePayload) (f2 : Farm)
    (h : apply_farm_update f u = .ok f2) :
    f2.id = f.id ∧ f2.owner_email = f.owner_email ∧ f2.shared_with = f.shared_with := by
  unfold apply_farm_update at h
  split at h
  · exact absurd h (by simp)
  · simp only [Except.ok.injEq] at h
    subst h
    exact ⟨rfl, rfl, rfl⟩

/-- C8: every farm operation — create, update, delete, share — preserves the
invariant that a farm's `owner_email` is never a member of its `shared_with`
list. -/
theorem C8_owner_never_shared :
    (∀ (farms : List Farm) (p : FarmCreatePayload) (owner nid : String),
      (∀ f ∈ farms, farm_inv f) →
      ∀ f ∈ create_farm farms p owner nid, farm_inv f)
    ∧ (∀ (farms : List Farm) (eid email : String) (u : FarmUpdatePayload)
      (fs2 : List Farm),
      (∀ f ∈ farms, farm_inv f) →
      update_farm farms eid email u = .ok fs2 →
      ∀ f ∈ fs2, farm_inv f)
    ∧ (∀ (db : AppDB) (eid email : String) (a b c : Bool) (db2 : AppDB),
      (∀ f ∈ db.farms, farm_inv f) →
      delete_farm db eid email a b c = .ok db2 →
      ∀ f ∈ db2.farms, farm_inv f)
    ∧ (∀ (farms : List Farm) (users : List String) (eid acting : String)
      (add remove : Option (List String)) (fs2 : List Farm) (d2 : Farm),
      (∀ f ∈ farms, farm_inv f) →
      share_farm farms users eid acting add remove = .ok (fs2, d2) →
      ∀ f ∈ fs2, farm_inv f) := by
  refine ⟨?_, ?_, ?_, ?_⟩
  · intro farms p owner nid hinv f hf
    rw [create_farm, List.mem_append] at hf
    rcases hf with hold | hnew
    · exact hinv f hold
    · simp only [List.mem_singleton] at hnew
      subst hnew
      simp [farm_inv]
  · intro farms eid email u fs2 hinv hok f hf
    unfold update_farm at hok
    cases hfind : farms.find? (fun f => f.id == eid) with
    | none => rw [hfind] at hok; exact absurd hok (by simp)
    | some doc =>
      rw [hfind] at hok
      dsimp only at hok
      split at hok
      · exact absurd hok (by simp)
      · cases happ : apply_farm_update doc u with
        | error e => rw [happ] at hok; exact absurd hok (by simp)
        | ok doc2 =>
          rw [happ] at hok
          simp only [Except.ok.injEq] at hok
          subst hok
          obtain ⟨x, hx, hfx⟩ := List.mem_map.mp hf
          obtain ⟨-, hown, hshared⟩ := apply_farm_update_frame doc u doc2 happ
          by_cases hxid : (x.id == doc.id) = true
          · rw [if_pos hxid] at hfx
            subst hfx
            have hdoc : doc ∈ farms := List.mem_of_find?_eq_some hfind
            simp only [farm_inv, hown, hshared]
            exact hinv doc hdoc
          · rw [if_neg hxid] at hfx
            subst hfx
            exact hinv x hx
  · intro db eid email a b c db2 hinv hok f hf
    unfold delete_farm at hok
    cases hfind : db.farms.find? (fun f => f.id == eid) with
    | none => rw [hfind] at hok; exact absurd hok (by simp)
    | some doc =>
      rw [hfind] at hok
      dsimp only at hok
      split at hok
      · exact absurd hok (by simp)
      · simp only [Except.ok.injEq] at hok
        subst hok
        exact hinv f (List.mem_of_mem_filter hf)
  · intro farms users eid acting add remove fs2 d2 hinv hok f hf
    unfold share_farm at hok
    cases hfind : farms.find? (fun f => f.id == eid) with
    | none => rw [hfind] at hok; exact absurd hok (by simp)
    | some doc =>
      rw [hfind] at hok
      dsimp only at hok
      split at hok
      · exact absurd hok (by simp)
      · rename_i hguard
        have hacting : acting = doc.owner_email := by
          simpa [beq_iff_eq] using hguard
        simp only [Except.ok.injEq, Prod.mk.injEq] at hok
        obtain ⟨hfs, -⟩ := hok
        subst hfs
        obtain ⟨x, hx, hfx⟩ := List.mem_map.mp hf
        by_cases hxid : (x.id == doc.id) = true
        · rw [if_pos hxid] at hfx
          subst hfx
          have hdoc : doc ∈ farms := List.mem_of_find?_eq_some hfind
          intro hmem
          dsimp only [farm_inv] at hmem ⊢
          rw [mem_insertionSort_strLeR] at hmem
          have hmem' := List.mem_filter.mp hmem
          rcases List.mem_append.mp (List.mem_dedup.mp hmem'.1) with hcur | hadd
          · exact hinv doc hdoc hcur
          · have h1 := (List.mem_filter.mp (List.mem_filter.mp hadd).1).2
            rw [hacting] at h1
            simp at h1
        · rw [if_neg hxid] at hfx
          subst hfx
          exact hinv x hx

/-- C8 witness: the invariant theorem applied, per operation, to concrete
states built from `farm0`. -/
theorem C8_witness :
    (∀ f ∈ create_farm [farm0] fc0 "owner@x.com" "f2", farm_inv f)
    ∧ (∀ f ∈ [farm0_renamed], farm_inv f)
    ∧ (∀ f ∈ db0_deleted.farms, farm_inv f)
    ∧ (∀ f ∈ [farm0_shared], farm_inv f) :=
  ⟨C8_owner_never_shared.1 [farm0] fc0 "owner@x.com" "f2" (by simp [farm_inv, farm0]),
   C8_owner_never_shared.2.1 [farm0] "f1" "owner@x.com" fu0 [farm0_renamed]
     (by simp [farm_inv, farm0]) rfl,
   C8_owner_never_shared.2.2.1 db0 "f1" "owner@x.com" false false false db0_deleted
     (by simp [db0, farm_inv, farm0]) rfl,
   C8_owner_never_shared.2.2.2 [farm0] users0 "f1" "owner@x.com" add_list0 none
     [farm0_shared] farm0_shared (by simp [farm_inv, farm0]) rfl⟩

/-- C10: the farm update payload type exposes neither `owner_email` nor
`shared_with`, and `update_farm` applies only the payload's set fields, so
after any update — for any partial payload — every persisted farm keeps the
owner and sharing list of the farm it replaced: ownership cannot be
transferred and the sharing list cannot be altered through update. -/
theorem C10_update_preserves_owner_and_sharing :
    (∀ (f : Farm) (u : FarmUpdatePayload) (f2 : Farm),
      apply_farm_update f u = .ok f2 →
      f2.owner_email = f.owner_email ∧ f2.shared_with = f.shared_with)
    ∧ (∀ (farms : List Farm) (eid email : String) (u : FarmUpdatePayload)
      (fs2 : List Farm) (f2 : Farm),
      update_farm farms eid email u = .ok fs2 → f2 ∈ fs2 →
      ∃ f ∈ farms, f.id = f2.id ∧ f2.owner_email = f.owner_email
        ∧ f2.shared_with = f.shared_with) := by
  constructor
  · intro f u f2 h
    exact (apply_farm_update_frame f u f2 h).2
  · intro farms eid email u fs2 f2 hok hf2
    unfold update_farm at hok
    cases hfind : farms.find? (fun f => f.id == eid) with
    | none => rw [hfind] at hok; exact absurd hok (by simp)
    | some doc =>
      rw [hfind] at hok
      dsimp only at hok
      split at hok
      · exact absurd hok (by simp)
      · cases happ : apply_farm_update doc u with
        | error e => rw [happ] at hok; exact absurd hok (by simp)
        | ok doc2 =>
          rw [happ] at hok
          simp only [Except.ok.injEq] at hok
          subst hok
          obtain ⟨x, hx, hfx⟩ := List.mem_map.mp hf2
          obtain ⟨hid, hown, hshared⟩ := apply_farm_update_frame doc u doc2 happ
          by_cases hxid : (x.id == doc.id) = true
          · rw [if_pos hxid] at hfx
            subst hfx
            exact ⟨doc, List.mem_of_find?_eq_some hfind, hid.symm, hown, hshared⟩
          · rw [if_neg hxid] at hfx
            subst hfx
            exact ⟨x, hx, rfl, rfl, rfl⟩

/-- C10 witness: the frame theorem applied to the rename of `farm0`. -/
theorem C10_witness :
    (farm0_renamed.owner_email = farm0.owner_email
      ∧ farm0_renamed.shared_with = farm0.shared_with)
    ∧ (∃ f ∈ [farm0], f.id = farm0_renamed.id
        ∧ farm0_renamed.owner_email = f.owner_email
        ∧ farm0_renamed.shared_with = f.shared_with) :=
  ⟨C10_update_preserves_owner_and_sharing.1 farm0 fu0 farm0_renamed rfl,
   C10_update_preserves_owner_and_sharing.2 [farm0] "f1" "owner@x.com" fu0
     [farm0_renamed] farm0_renamed rfl (by decide)⟩

end OPRBE
